import Mathlib

/-!
Verification development for the `web-xr-ogl-js` repository.

The development shallowly embeds the three core pieces of the source:

* `OGLXRLayer` / `OGLQuadLayer` (logical layer with native/fallback duality),
  from `src/unnamed/part_001`;
* `XRState` (session state: `getLayer`, `clear`, `requestAnimationFrame`,
  `updateRenderState`), from `src/src/xr/XRRenderer.ts`;
* the `XRRenderer` frame-loop scheduler (`_internalLoop`, `_clearLoop`,
  `_attachLoop`, `requestAnimationFrame`, `cancelAnimationFrame`,
  `onSessionStart`, `onSessionLost`, `requestXR`) and the logical-layer
  registry (`registerLayer`, `_onLayerDestroy`), from the same file.

JavaScript object identity that matters for the claims (function identity in
`addEventListener`/`removeEventListener`, freshness of `XRRigidTransform`
objects) is modelled by minting natural-number tokens from monotone counters.
-/

namespace WebXROgl

/-! ## Logical layer model (`OGLXRLayer` / `OGLQuadLayer`, src/unnamed/part_001)

The only concrete layer class in the source is `OGLQuadLayer`; its
`_createFallbackLayers` returns one `QuadPrimitive`, or two when
`options.layout` contains `"stereo"`.  Mesh objects and `XRRigidTransform`
objects are represented by identity tokens.  `objCtr` is the source of fresh
object identities: every `new self.XRRigidTransform(...)` mints a new token,
so two transform objects constructed at different times are distinct. -/

/-- Model of an `XRRigidTransform` object: the position/quaternion snapshot it
was constructed from, plus an identity token (each `new` mints a fresh one). -/
structure RigidTransform where
  pos : Nat
  quat : Nat
  ident : Nat
  deriving DecidableEq, Repr

/-- State of one `OGLQuadLayer` (fields of `OGLXRLayer` from
src/unnamed/part_001 that the claims are about).  `position`/`quaternion` are
abstract snapshots of the OGL `Transform` base-class state; `stereo` records
whether `options.layout` includes `"stereo"`; `meshCtr` mints identity tokens
for fallback `QuadPrimitive` meshes; `objCtr` mints identity tokens for
`XRRigidTransform` objects. -/
structure LayerSt where
  nativeLayer : Option Nat
  nativeTransform : Option RigidTransform
  emulatedLayers : Option (List Nat)
  transformDirty : Bool
  /-- the `transform` property of the currently bound native layer
  (set by `OGLQuadLayer._updateNative`) -/
  pushedTransform : Option RigidTransform
  position : Nat
  quat : Nat
  meshCtr : Nat
  objCtr : Nat
  stereo : Bool
  deriving DecidableEq, Repr

/-- Constructor state: `transformDirty: boolean = true`, no native layer, no
fallback meshes, no transform object yet. -/
def LayerSt.initial (stereo : Bool) : LayerSt :=
  { nativeLayer := none
    nativeTransform := none
    emulatedLayers := none
    transformDirty := true
    pushedTransform := none
    position := 0
    quat := 0
    meshCtr := 0
    objCtr := 0
    stereo := stereo }

/-- Model of the getter `isNative`: a native handle is present and no
fallback primitives are held. -/
def LayerSt.isNative (s : LayerSt) : Bool :=
  s.nativeLayer.isSome && s.emulatedLayers.isNone

/-- Model of `destroyNative()`: destroys the native handle (external effect) and nulls
`nativeLayer` and `nativeTransform`; the pushed transform dies with the
handle. -/
def LayerSt.destroyNative (s : LayerSt) : LayerSt :=
  { s with nativeLayer := none, nativeTransform := none, pushedTransform := none }

/-- Model of `OGLQuadLayer._createFallbackLayers()`: one quad primitive, two when the
layout option requests stereo.  Mesh identities are minted from `meshCtr`. -/
def LayerSt.createFallbackLayers (s : LayerSt) : List Nat × Nat :=
  if s.stereo then ([s.meshCtr, s.meshCtr + 1], s.meshCtr + 2)
  else ([s.meshCtr], s.meshCtr + 1)

/-- Model of `createFallback()`: no-op when fallback meshes already exist, otherwise
builds them via `_createFallbackLayers` and attaches them as children. -/
def LayerSt.createFallback (s : LayerSt) : LayerSt :=
  match s.emulatedLayers with
  | some _ => s
  | none =>
      let (ms, ctr) := s.createFallbackLayers
      { s with emulatedLayers := some ms, meshCtr := ctr }

/-- Model of `destroyFallback()`: no-op when no fallback meshes exist, otherwise
detaches and drops them. -/
def LayerSt.destroyFallback (s : LayerSt) : LayerSt :=
  match s.emulatedLayers with
  | none => s
  | some _ => { s with emulatedLayers := none }

/-- Model of `OGLXRLayer._updateNative()` (the `super` part): when the dirty flag is
set or no transform object exists yet, construct a brand-new
`XRRigidTransform` from the current position/quaternion.  Note the source
never clears `transformDirty` here. -/
def LayerSt.updateNativeBase (s : LayerSt) : LayerSt :=
  if s.transformDirty || s.nativeTransform.isNone then
    { s with nativeTransform := some ⟨s.position, s.quat, s.objCtr⟩
             objCtr := s.objCtr + 1 }
  else s

/-- Model of `OGLQuadLayer._updateNative()`: the base behaviour, then
`this.nativeLayer.transform = this.nativeTransform`. -/
def LayerSt.updateNative (s : LayerSt) : LayerSt :=
  let s := s.updateNativeBase
  { s with pushedTransform := s.nativeTransform }

/-- Events `bindLayer`/`destroy` emit towards the owning renderer
(`onLayerDestroy(this, nativeOnly)`). -/
inductive LayerEv
  | layerDestroyCb (nativeOnly : Bool)
  deriving DecidableEq, Repr

/-- Model of `bindLayer(layer)` from src/unnamed/part_001: destroy a differing previous
native handle (notifying the owner with `nativeOnly = true`), then either
adopt the new handle (dropping fallback meshes and pushing the transform) or
create fallback meshes. -/
def LayerSt.bindLayer (s : LayerSt) (layer : Option Nat) : LayerSt × List LayerEv :=
  let (s, evs) :=
    if s.nativeLayer.isSome ∧ s.nativeLayer ≠ layer then
      (s.destroyNative, [LayerEv.layerDestroyCb true])
    else (s, [])
  match layer with
  | some h =>
      let s := s.destroyFallback
      let s := { s with nativeLayer := some h }
      (s.updateNative, evs)
  | none => (s.createFallback, evs)

/-- Model of `update()` from the source: `this.nativeLayer && this._updateNative()`. -/
def LayerSt.update (s : LayerSt) : LayerSt :=
  if s.nativeLayer.isSome then s.updateNative else s

/-- Model of `needUpdateTransform()`: `this.transformDirty = true`. -/
def LayerSt.needUpdateTransform (s : LayerSt) : LayerSt :=
  { s with transformDirty := true }

/-- Model of `destroy()`: notify the owner with `nativeOnly = false`, then tear down
the native handle. -/
def LayerSt.destroy (s : LayerSt) : LayerSt × List LayerEv :=
  (s.destroyNative, [LayerEv.layerDestroyCb false])

/-- Operations application code (and the renderer) can perform on one logical
layer; `move` models mutating the OGL `Transform` position/quaternion. -/
inductive LayerOp
  | bind (layer : Option Nat)
  | update
  | needUpdateTransform
  | move (pos quat : Nat)
  | destroy
  deriving DecidableEq, Repr

/-- Apply one operation to a layer state (events dropped). -/
def LayerSt.applyOp (s : LayerSt) : LayerOp → LayerSt
  | .bind l => (s.bindLayer l).1
  | .update => s.update
  | .needUpdateTransform => s.needUpdateTransform
  | .move p q => { s with position := p, quat := q }
  | .destroy => (s.destroy).1

/-- Run a sequence of layer operations from a state. -/
def LayerSt.runOps (s : LayerSt) : List LayerOp → LayerSt
  | [] => s
  | op :: ops => (s.applyOp op).runOps ops

/-! ## Session state model (`XRState`, src/src/xr/XRRenderer.ts)

Host-side native layers, render targets, the GL binding and DOM-style
listener functions are all identified by natural-number tokens.  Function
identity matters for `addEventListener`/`removeEventListener`: the
constructor stores `this.onEnd = this.onEnd.bind(this)` (tokens `onEndTok`,
`onInputTok`), while `init` registers `this.onEnd.bind(this)` — a *fresh*
function object, minted from `nextFnTok`. -/

/-- Native layer type tag (`"base" | "cube" | "quad" | "sphere"`). -/
inductive LType
  | base
  | cube
  | quad
  | sphere
  deriving DecidableEq, Repr

/-- A host-side layer object.  `legacyWebGL` marks an `XRWebGLLayer`, which
has no `destroy()` method (composition layers do). -/
structure NLayer where
  id : Nat
  kind : LType
  legacyWebGL : Bool
  deriving DecidableEq, Repr

/-- The host session object: the listener functions currently attached to its
`end` and `inputsourceschange` events, by function-identity token.  The
object outlives the `XRState`'s reference to it. -/
structure SessObj where
  listenersEnd : List Nat
  listenersInput : List Nat
  deriving DecidableEq, Repr

/-- Externally observable effects of `XRState` operations. -/
inductive XREff
  | warn
  | syncLayers (ids : List Nat)
  | syncBase (id : Option Nat)
  | destroyLayer (id : Nat)
  | destroyTarget (id : Nat)
  deriving DecidableEq, Repr

/-- State of one `XRState` instance (fields from src/src/xr/XRRenderer.ts).
`XRState.layersSupport` is a static capability flag sampled per session; it is
carried here as a plain field.  `nextId` mints host-object identities
(layers, render targets); `nextFnTok` mints function identities for
`.bind(this)` results. -/
structure XRSt where
  layersSupport : Bool
  session : Option SessObj
  spaceSet : Bool
  layers : List NLayer
  baseLayer : Option NLayer
  baseLayerTarget : Option Nat
  glBinding : Option Nat
  lastXRFrame : Option Nat
  onEndTok : Nat
  onInputTok : Nat
  nextFnTok : Nat
  nextId : Nat
  deriving DecidableEq, Repr

/-- Model of `new XRState(context)`: the constructor rebinds `onEnd`/`onInputChanged`,
fixing their function identities once and for all. -/
def XRSt.mk0 (support : Bool) : XRSt :=
  { layersSupport := support
    session := none
    spaceSet := false
    layers := []
    baseLayer := none
    baseLayerTarget := none
    glBinding := none
    lastXRFrame := none
    onEndTok := 0
    onInputTok := 1
    nextFnTok := 2
    nextId := 0 }

/-- Model of `clear()` from the source: no-op without a session; otherwise calls
`removeEventListener` with `this.onEnd`/`this.onInputChanged` (matching by
function identity), destroys every layer in the active list that has a
`destroy` method, destroys the base-layer render target and the base layer,
and nulls everything.  Returns the new state, the (now detached) session
object, and the destroy effects in source order. -/
def XRSt.clear (s : XRSt) : XRSt × Option SessObj × List XREff :=
  match s.session with
  | none => (s, none, [])
  | some so =>
      let so : SessObj :=
        { listenersEnd := so.listenersEnd.filter (· ≠ s.onEndTok)
          listenersInput := so.listenersInput.filter (· ≠ s.onInputTok) }
      let layerEffs := s.layers.filterMap fun l =>
        if l.legacyWebGL then none else some (XREff.destroyLayer l.id)
      let targetEffs := match s.baseLayerTarget with
        | some t => [XREff.destroyTarget t]
        | none => []
      let baseEffs := match s.baseLayer with
        | some b => if b.legacyWebGL then [] else [XREff.destroyLayer b.id]
        | none => []
      ({ s with
          layers := []
          session := none
          spaceSet := false
          baseLayerTarget := none
          baseLayer := none
          glBinding := none },
       some so, layerEffs ++ targetEffs ++ baseEffs)

/-- Model of `init(session, space)` from the source (as reached from `requestSession`
with a freshly negotiated session): clears any previous session, records the
space and session, and attaches `this.onEnd.bind(this)` and
`this.onInputChanged.bind(this)` — two brand-new function objects — as the
session's `end` and `inputsourceschange` listeners, then fires `xrstart`. -/
def XRSt.init (s : XRSt) : XRSt :=
  let s := if s.session.isSome then (s.clear).1 else s
  { s with
      spaceSet := true
      session := some ⟨[s.nextFnTok], [s.nextFnTok + 1]⟩
      nextFnTok := s.nextFnTok + 2 }

/-- Model of `updateRenderState()`: push the full ordered layer list on a
layer-capable host, or just the legacy base layer otherwise. -/
def XRSt.updateRenderState (s : XRSt) : XREff :=
  if s.layersSupport then XREff.syncLayers (s.layers.map (·.id))
  else XREff.syncBase (s.baseLayer.map (·.id))

/-- Model of `getLayer(gl, type, options)` from the source.  Without native-layer
support, the guard is `type !== "base" || this.layers.length > 1`: it warns
and returns `null`, else mints a legacy `XRWebGLLayer` and caches it as the
base layer.  With support, it lazily creates the shared `XRWebGLBinding`,
then dispatches on the type: `"base"` mints a projection layer plus its
render target, `"quad"` mints a quad layer, anything else throws
`"Unsuppoted yet"`.  Every minted layer is unshifted onto the active-layer
list and the render state is synced. -/
def XRSt.getLayer (s : XRSt) (t : LType) :
    Except String (Option NLayer × XRSt × List XREff) :=
  if ¬s.layersSupport ∧ (t ≠ LType.base ∨ s.layers.length > 1) then
    Except.ok (none, s, [XREff.warn])
  else if ¬s.layersSupport then
    let nl : NLayer := ⟨s.nextId, t, true⟩
    let s := { s with nextId := s.nextId + 1, baseLayer := some nl }
    let s := { s with layers := nl :: s.layers }
    Except.ok (some nl, s, [s.updateRenderState])
  else
    let s := { s with glBinding := some (s.glBinding.getD 0) }
    match t with
    | LType.base =>
        let nl : NLayer := ⟨s.nextId, LType.base, false⟩
        let s := { s with
            nextId := s.nextId + 2
            baseLayer := some nl
            baseLayerTarget := some (s.nextId + 1) }
        let s := { s with layers := nl :: s.layers }
        Except.ok (some nl, s, [s.updateRenderState])
    | LType.quad =>
        let nl : NLayer := ⟨s.nextId, LType.quad, false⟩
        let s := { s with nextId := s.nextId + 1 }
        let s := { s with layers := nl :: s.layers }
        Except.ok (some nl, s, [s.updateRenderState])
    | _ => Except.error "Unsuppoted yet"

/-- Model of `onLayerDestroy(layer)` on `XRState`: no-op without layer support or
without a session; otherwise filters the layer out of the active list and
re-syncs. -/
def XRSt.onLayerDestroy (s : XRSt) (id : Nat) : XRSt × List XREff :=
  if ¬s.layersSupport ∨ s.session.isNone then (s, [])
  else
    let s := { s with layers := s.layers.filter (·.id ≠ id) }
    (s, [s.updateRenderState])

/-- The wrapper `XRState.requestAnimationFrame` hands to the host session:
records the incoming frame as `lastXRFrame`, runs the callback, and nulls
`lastXRFrame` again. -/
def XRSt.rafWrapper (cb : Nat → XRSt → XRSt) (frame : Nat) (s : XRSt) : XRSt :=
  let s1 := { s with lastXRFrame := some frame }
  let s2 := cb frame s1
  { s2 with lastXRFrame := none }

/-- Model of `XRState.requestAnimationFrame(callback)`: throws when no session is
active, otherwise registers `rafWrapper` with the session. -/
def XRSt.requestAnimationFrame (s : XRSt) (cb : Nat → XRSt → XRSt) :
    Except String (Nat → XRSt → XRSt) :=
  if s.session.isNone then
    Except.error "Try to requiest anima frame on disabled XRState"
  else
    Except.ok (XRSt.rafWrapper cb)

/-- Projection: the layer handle a `getLayer` call produced (`none` both for
the warn-and-return-null path and for a thrown error). -/
def getLayerResult (r : Except String (Option NLayer × XRSt × List XREff)) :
    Option NLayer :=
  match r with
  | Except.ok (nl, _, _) => nl
  | Except.error _ => none

/-- Projection: the state after a `getLayer` call (the input state if it
threw). -/
def getLayerState (r : Except String (Option NLayer × XRSt × List XREff))
    (dflt : XRSt) : XRSt :=
  match r with
  | Except.ok (_, s, _) => s
  | Except.error _ => dflt

/-- Projection: the effects of a `getLayer` call. -/
def getLayerEffects (r : Except String (Option NLayer × XRSt × List XREff)) :
    List XREff :=
  match r with
  | Except.ok (_, _, effs) => effs
  | Except.error _ => []

/-! ## Loop-scheduler model (`XRRenderer`, src/src/xr/XRRenderer.ts)

The renderer keeps a single cancellation closure `_clearLoopDel` for the one
"next frame" request it has outstanding against either the host display
(`window.requestAnimationFrame`) or the active XR session.  Host-side
outstanding requests are modelled explicitly as the list `live` of
`(request id, source)` pairs, so "at most one outstanding request" is a
theorem, not a representation artifact.  The cancellation closure for a
session request reads `this.session` at call time
(`this.session?.cancelAnimationFrame(loopid)`), so it only reaches the host
while a session is active; a session that ends discards its own pending
requests.  One-shot callbacks registered through the renderer's
`requestAnimationFrame` live in an insertion-ordered map, modelled as the id
list `rafCbs`; the behaviour a callback performs when invoked (registering
further callbacks, cancelling pending ones) is supplied by an environment
`env : Nat → List CbAct` indexed by callback id. -/

/-- The two frame-clock sources. -/
inductive ClockSrc
  | display
  | xrsession
  deriving DecidableEq, Repr

/-- What a one-shot callback may do to the renderer while it runs during the
drain: register a fresh callback or cancel a pending one. -/
inductive CbAct
  | reg
  | cancel (id : Nat)
  deriving DecidableEq, Repr

/-- Host-visible events of the scheduler, in order. -/
inductive SchedEv
  | frameReq (src : ClockSrc) (id : Nat)
  | frameCancel (src : ClockSrc) (id : Nat)
  | invoke (cbId : Nat)
  | negotiate (success : Bool)
  deriving DecidableEq, Repr

/-- Scheduler-relevant state of one `XRRenderer` (plus the host's view of
outstanding frame requests). -/
structure SchedState where
  xrActive : Bool
  live : List (Nat × ClockSrc)
  handleDel : Option (Nat × ClockSrc)
  rafCbs : List Nat
  nextCbId : Nat
  nextReqId : Nat
  deriving DecidableEq, Repr

/-- State at renderer construction: no session, no pending request, no
callbacks. -/
def SchedState.start : SchedState :=
  { xrActive := false
    live := []
    handleDel := none
    rafCbs := []
    nextCbId := 0
    nextReqId := 0 }

/-- The clock source `_attachLoop` would pick: the session when
`this.xr.active`, the display otherwise. -/
def SchedState.curSrc (s : SchedState) : ClockSrc :=
  if s.xrActive then ClockSrc.xrsession else ClockSrc.display

/-- Run a stored cancellation closure.  A display closure always calls
`window.cancelAnimationFrame(id)`; a session closure calls
`this.session?.cancelAnimationFrame(loopid)`, which is a no-op once the
session reference is gone. -/
def SchedState.runDel (s : SchedState) (id : Nat) (src : ClockSrc) :
    SchedState × List SchedEv :=
  match src with
  | ClockSrc.display =>
      ({ s with live := s.live.filter (· ≠ (id, ClockSrc.display)) },
       [SchedEv.frameCancel ClockSrc.display id])
  | ClockSrc.xrsession =>
      if s.xrActive then
        ({ s with live := s.live.filter (· ≠ (id, ClockSrc.xrsession)) },
         [SchedEv.frameCancel ClockSrc.xrsession id])
      else (s, [])

/-- Model of `_clearLoop()`: run and drop the stored cancellation closure, if any. -/
def SchedState.clearLoop (s : SchedState) : SchedState × List SchedEv :=
  match s.handleDel with
  | none => (s, [])
  | some (id, src) =>
      let (s, evs) := s.runDel id src
      ({ s with handleDel := none }, evs)

/-- Issue one frame request against a source and store its cancellation
closure. -/
def SchedState.requestFrom (s : SchedState) (src : ClockSrc) :
    SchedState × List SchedEv :=
  let id := s.nextReqId
  ({ s with
      live := s.live ++ [(id, src)]
      nextReqId := id + 1
      handleDel := some (id, src) },
   [SchedEv.frameReq src id])

/-- Model of `_attachLoop()`: clear the previous request, then request the next frame
from whichever source is currently selected. -/
def SchedState.attachLoop (s : SchedState) : SchedState × List SchedEv :=
  let (s1, e1) := s.clearLoop
  let (s2, e2) := s1.requestFrom s1.curSrc
  (s2, e1 ++ e2)

/-- Model of `XRRenderer.requestAnimationFrame(callback)`: append the callback under a
fresh monotone id, then attach the loop if no cancellation closure is
stored. -/
def SchedState.reqRAF (s : SchedState) : SchedState × List SchedEv :=
  let s := { s with rafCbs := s.rafCbs ++ [s.nextCbId], nextCbId := s.nextCbId + 1 }
  if s.handleDel.isNone then s.attachLoop else (s, [])

/-- Model of `XRRenderer.cancelAnimationFrame(id)`: delete the callback from the
pending map. -/
def SchedState.cancelRAF (s : SchedState) (id : Nat) : SchedState :=
  { s with rafCbs := s.rafCbs.filter (· ≠ id) }

/-- Run the actions one callback performs while it is invoked. -/
def SchedState.runActs (s : SchedState) : List CbAct → SchedState × List SchedEv
  | [] => (s, [])
  | CbAct.reg :: acts =>
      let (s1, e1) := s.reqRAF
      let (s2, e2) := s1.runActs acts
      (s2, e1 ++ e2)
  | CbAct.cancel id :: acts => (s.cancelRAF id).runActs acts

/-- Invoke a list of drained callbacks in order, each one performing the
actions `env` assigns to its id. -/
def SchedState.drain (env : Nat → List CbAct) (s : SchedState) :
    List Nat → SchedState × List SchedEv
  | [] => (s, [])
  | id :: ids =>
      let (s1, e1) := s.runActs (env id)
      let (s2, e2) := SchedState.drain env s1 ids
      (s2, SchedEv.invoke id :: (e1 ++ e2))

/-- Model of `_internalLoop(time, frame)`: snapshot the callback map, clear it, invoke
every snapshotted callback in insertion order, then re-request the next
frame. -/
def SchedState.internalLoop (env : Nat → List CbAct) (s : SchedState) :
    SchedState × List SchedEv :=
  let cbs := s.rafCbs
  let s := { s with rafCbs := [] }
  let (s1, e1) := SchedState.drain env s cbs
  let (s2, e2) := s1.attachLoop
  (s2, e1 ++ e2)

/-- The host fires an outstanding frame request: it leaves the host's pending
set and `_internalLoop` runs. -/
def SchedState.fire (env : Nat → List CbAct) (s : SchedState)
    (p : Nat × ClockSrc) : SchedState × List SchedEv :=
  let s := { s with live := s.live.filter (· ≠ p) }
  s.internalLoop env

/-- Model of `onSessionStart` as it affects the scheduler: the session has just become
active; re-anchor the loop to the session clock. -/
def SchedState.sessionStartStep (s : SchedState) : SchedState × List SchedEv :=
  SchedState.attachLoop { s with xrActive := true }

/-- A host-initiated session end as it affects the scheduler: the session
(and its pending frame requests) dies, `XRState.clear` nulls the session
reference, then `onSessionLost` runs `_clearLoop` and `_attachLoop`. -/
def SchedState.sessionEndStep (s : SchedState) : SchedState × List SchedEv :=
  let s := { s with
      xrActive := false
      live := s.live.filter (·.2 ≠ ClockSrc.xrsession) }
  let (s1, e1) := s.clearLoop
  let (s2, e2) := s1.attachLoop
  (s2, e1 ++ e2)

/-- Model of `requestXR(options)`: resolve immediately when a session is already
active; otherwise pause the loop, negotiate (on success the `xrstart` event
runs `onSessionStart` before `requestXR` resumes), and re-attach the loop in
the `finally` block whatever the outcome. -/
def SchedState.requestXR (s : SchedState) (success : Bool) :
    SchedState × List SchedEv :=
  if s.xrActive then (s, [])
  else
    let (s1, e1) := s.clearLoop
    if success then
      let (s2, e2) := s1.sessionStartStep
      let (s3, e3) := s2.attachLoop
      (s3, e1 ++ [SchedEv.negotiate true] ++ e2 ++ e3)
    else
      let (s3, e3) := s1.attachLoop
      (s3, e1 ++ [SchedEv.negotiate false] ++ e3)

/-- One renderer-level scheduler step: an application call
(`requestAnimationFrame`, `cancelAnimationFrame`, `requestXR`), a host frame
callback firing, or a session lifecycle event. -/
inductive SchedStep (env : Nat → List CbAct) : SchedState → SchedState → Prop
  | raf (s : SchedState) : SchedStep env s (s.reqRAF).1
  | cancel (s : SchedState) (id : Nat) : SchedStep env s (s.cancelRAF id)
  | fire (s : SchedState) (p : Nat × ClockSrc) (h : p ∈ s.live) :
      SchedStep env s (s.fire env p).1
  | reqXR (s : SchedState) (b : Bool) : SchedStep env s (s.requestXR b).1
  | sessionStart (s : SchedState) (h : s.xrActive = false) :
      SchedStep env s (s.sessionStartStep).1
  | sessionEnd (s : SchedState) (h : s.xrActive = true) :
      SchedStep env s (s.sessionEndStep).1

/-- States the scheduler can reach from renderer construction. -/
inductive SchedReachable (env : Nat → List CbAct) : SchedState → Prop
  | start : SchedReachable env SchedState.start
  | step {s t : SchedState} : SchedReachable env s → SchedStep env s t →
      SchedReachable env t

/-- The scheduler invariant: the stored cancellation closure matches the one
outstanding host request, whose source matches the current clock source; with
an active session a request is always pending. -/
def SchedInv (s : SchedState) : Prop :=
  if s.xrActive then
    ∃ n, s.handleDel = some (n, ClockSrc.xrsession) ∧
      s.live = [(n, ClockSrc.xrsession)]
  else
    (s.handleDel = none ∧ s.live = []) ∨
    ∃ n, s.handleDel = some (n, ClockSrc.display) ∧
      s.live = [(n, ClockSrc.display)]

/-! ## Logical-layer registry model (`XRRenderer.registerLayer` /
`_onLayerDestroy`, src/src/xr/XRRenderer.ts)

Logical layers are identified by tokens.  `registerLayer` splices out an
existing occurrence and unshifts the layer; `_onLayerDestroy(layer,
nativeOnly)` filters the layer out of the registry only on a full destroy
(`nativeOnly = false`).  Session start and loss iterate the registry calling
`bindLayer`, whose only registry-visible effect is `onLayerDestroy(this,
true)` calls — native-only, so membership never changes. -/

/-- Model of `_onLayerDestroy(layer, nativeOnly)` as it affects the registry. -/
def regOnLayerDestroy (r : List Nat) (l : Nat) (nativeOnly : Bool) :
    List Nat :=
  if nativeOnly then r else r.filter (· ≠ l)

/-- One registry-affecting operation on the renderer. -/
inductive RegOp
  | register (l : Nat)
  | destroy (l : Nat)
  | sessionStart
  | sessionLost
  deriving DecidableEq, Repr

/-- Apply one operation to the registry.  `register` is
`indexOf`/`splice`/`unshift`; `destroy` is the layer's `destroy()` reaching
`_onLayerDestroy(layer, false)`; the session events rebind every registered
layer, which reaches `_onLayerDestroy(layer, true)` (at most once per
layer) and leaves membership alone. -/
def regStep (r : List Nat) : RegOp → List Nat
  | RegOp.register l => l :: r.erase l
  | RegOp.destroy l => regOnLayerDestroy r l false
  | RegOp.sessionStart => r.foldl (fun acc l => regOnLayerDestroy acc l true) r
  | RegOp.sessionLost => r.foldl (fun acc l => regOnLayerDestroy acc l true) r

/-- Run a sequence of registry operations from a registry. -/
def regRun (r : List Nat) : List RegOp → List Nat
  | [] => r
  | op :: ops => regRun (regStep r op) ops

/-- The set of distinct layers registered and not yet fully destroyed, read
off the operation sequence alone. -/
def aliveSet (a : Finset Nat) : List RegOp → Finset Nat
  | [] => a
  | RegOp.register l :: ops => aliveSet (insert l a) ops
  | RegOp.destroy l :: ops => aliveSet (a.erase l) ops
  | RegOp.sessionStart :: ops => aliveSet a ops
  | RegOp.sessionLost :: ops => aliveSet a ops

/-! ## Scheduler lemmas -/

theorem clearLoop_handleDel (s : SchedState) : (s.clearLoop).1.handleDel = none := by
  unfold SchedState.clearLoop
  cases h : s.handleDel with
  | none => simpa using h
  | some p =>
      obtain ⟨id, src⟩ := p
      unfold SchedState.runDel
      cases src <;> simp <;> split <;> simp

theorem clearLoop_stable (s : SchedState) :
    (s.clearLoop).1.xrActive = s.xrActive ∧
    (s.clearLoop).1.rafCbs = s.rafCbs ∧
    (s.clearLoop).1.nextCbId = s.nextCbId ∧
    (s.clearLoop).1.nextReqId = s.nextReqId := by
  unfold SchedState.clearLoop
  cases h : s.handleDel with
  | none => simp
  | some p =>
      obtain ⟨id, src⟩ := p
      unfold SchedState.runDel
      cases src <;> simp <;> split <;> simp

theorem clearLoop_events_cancel (s : SchedState) :
    ∀ e ∈ (s.clearLoop).2, ∃ src i, e = SchedEv.frameCancel src i := by
  unfold SchedState.clearLoop
  cases h : s.handleDel with
  | none => simp
  | some p =>
      obtain ⟨id, src⟩ := p
      unfold SchedState.runDel
      cases src with
      | display => simp
      | xrsession =>
          simp only []
          split <;> simp

/-- The precondition under which `_attachLoop` behaves cleanly: either
nothing is outstanding, or exactly the request matching the stored closure is
outstanding and its cancellation will actually reach the host. -/
def AttachPre (s : SchedState) : Prop :=
  s.live = [] ∨ ∃ p, s.handleDel = some p ∧ s.live = [p] ∧
    (p.2 = ClockSrc.display ∨ s.xrActive = true)

theorem attach_spec (s : SchedState) (h : AttachPre s) :
    (s.attachLoop).1 = { s with
        live := [(s.nextReqId, s.curSrc)]
        handleDel := some (s.nextReqId, s.curSrc)
        nextReqId := s.nextReqId + 1 } := by
  obtain ⟨xa, lv, hd, cbs, ncb, nrq⟩ := s
  rcases h with h | ⟨⟨pid, psrc⟩, hdel, hlive, hsrc⟩
  · subst h
    unfold SchedState.attachLoop SchedState.clearLoop SchedState.requestFrom
    cases hd with
    | none => simp [SchedState.curSrc]
    | some p =>
        obtain ⟨id, src⟩ := p
        unfold SchedState.runDel
        cases src <;> simp [SchedState.curSrc] <;> split <;> simp [SchedState.curSrc]
  · simp only [] at hdel hlive
    subst hdel; subst hlive
    unfold SchedState.attachLoop SchedState.clearLoop SchedState.runDel
    cases psrc with
    | display => simp [SchedState.requestFrom, SchedState.curSrc]
    | xrsession =>
        rcases hsrc with h | h
        · simp at h
        · simp only [] at h
          subst h
          simp [SchedState.requestFrom, SchedState.curSrc]

theorem attach_events (s : SchedState) :
    (s.attachLoop).2 = (s.clearLoop).2 ++ [SchedEv.frameReq s.curSrc s.nextReqId] := by
  have hst := clearLoop_stable s
  unfold SchedState.attachLoop
  simp [SchedState.requestFrom, SchedState.curSrc, hst.1, hst.2.2.2]

/-- Pure description of how the pending-callback map and the id counter
evolve while one callback's actions run. -/
def applyActsIds : List CbAct → List Nat × Nat → List Nat × Nat
  | [], acc => acc
  | CbAct.reg :: rest, (ids, n) => applyActsIds rest (ids ++ [n], n + 1)
  | CbAct.cancel i :: rest, (ids, n) => applyActsIds rest (ids.filter (· ≠ i), n)

/-- Pure description of the pending-callback map across a whole drain. -/
def drainIds (env : Nat → List CbAct) : List Nat → List Nat × Nat → List Nat × Nat
  | [], acc => acc
  | id :: ids, acc => drainIds env ids (applyActsIds (env id) acc)

theorem reqRAF_of_pending (s : SchedState) (h : s.handleDel.isSome) :
    s.reqRAF = ({ s with
                    rafCbs := s.rafCbs ++ [s.nextCbId]
                    nextCbId := s.nextCbId + 1 }, ([] : List SchedEv)) := by
  unfold SchedState.reqRAF
  obtain ⟨p, hp⟩ := Option.isSome_iff_exists.mp h
  simp [hp]

theorem runActs_spec (acts : List CbAct) (s : SchedState)
    (h : s.handleDel.isSome) :
    (s.runActs acts).1 = { s with
        rafCbs := (applyActsIds acts (s.rafCbs, s.nextCbId)).1
        nextCbId := (applyActsIds acts (s.rafCbs, s.nextCbId)).2 } ∧
    (s.runActs acts).2 = [] := by
  induction acts generalizing s with
  | nil => simp [SchedState.runActs, applyActsIds]
  | cons a rest ih =>
      cases a with
      | reg =>
          have hreq := reqRAF_of_pending s h
          have hdel2 : (s.reqRAF).1.handleDel.isSome := by rw [hreq]; exact h
          have hrest := ih (s := (s.reqRAF).1) hdel2
          simp only [SchedState.runActs]
          rw [hreq] at hrest ⊢
          refine ⟨?_, ?_⟩
          · rw [hrest.1]; simp [applyActsIds]
          · rw [hrest.2]; simp
      | cancel i =>
          have hdel2 : (s.cancelRAF i).handleDel.isSome := h
          have hrest := ih (s := s.cancelRAF i) hdel2
          simp only [SchedState.runActs]
          refine ⟨?_, hrest.2⟩
          rw [hrest.1]
          simp [SchedState.cancelRAF, applyActsIds]

theorem drain_spec (env : Nat → List CbAct) (ids : List Nat) (s : SchedState)
    (h : s.handleDel.isSome) :
    (SchedState.drain env s ids).1 = { s with
        rafCbs := (drainIds env ids (s.rafCbs, s.nextCbId)).1
        nextCbId := (drainIds env ids (s.rafCbs, s.nextCbId)).2 } ∧
    (SchedState.drain env s ids).2 = ids.map SchedEv.invoke := by
  induction ids generalizing s with
  | nil => simp [SchedState.drain, drainIds]
  | cons id rest ih =>
      have hact := runActs_spec (env id) s h
      have hdel2 : ((s.runActs (env id)).1).handleDel.isSome := by
        rw [hact.1]; exact h
      have hrest := ih (s := (s.runActs (env id)).1) hdel2
      simp only [SchedState.drain]
      constructor
      · rw [hrest.1, hact.1]
        simp [drainIds]
      · rw [hrest.2, hact.2]
        simp

theorem inv_start : SchedInv SchedState.start := by
  simp [SchedInv, SchedState.start]

theorem inv_of_none (s : SchedState) (hinv : SchedInv s)
    (h : s.handleDel = none) : s.xrActive = false ∧ s.live = [] := by
  unfold SchedInv at hinv
  by_cases hx : s.xrActive
  · rw [if_pos hx] at hinv
    obtain ⟨n, hn, _⟩ := hinv
    rw [h] at hn
    cases hn
  · rw [if_neg hx] at hinv
    rcases hinv with ⟨_, hl⟩ | ⟨n, hn, _⟩
    · exact ⟨by simpa using hx, hl⟩
    · rw [h] at hn; cases hn

theorem inv_attachPre (s : SchedState) (hinv : SchedInv s) : AttachPre s := by
  unfold SchedInv at hinv
  by_cases hx : s.xrActive
  · rw [if_pos hx] at hinv
    obtain ⟨n, hn, hl⟩ := hinv
    exact Or.inr ⟨(n, ClockSrc.xrsession), hn, hl, Or.inr hx⟩
  · rw [if_neg hx] at hinv
    rcases hinv with ⟨_, hl⟩ | ⟨n, hn, hl⟩
    · exact Or.inl hl
    · exact Or.inr ⟨(n, ClockSrc.display), hn, hl, Or.inl rfl⟩

theorem attach_inv (s : SchedState) (h : AttachPre s) :
    SchedInv (s.attachLoop).1 := by
  rw [attach_spec s h]
  by_cases hx : s.xrActive <;> simp [SchedInv, SchedState.curSrc, hx]

theorem clearLoop_of_inactive (s : SchedState) (hinv : SchedInv s)
    (hx : s.xrActive = false) :
    (s.clearLoop).1 = { s with live := [], handleDel := none } := by
  obtain ⟨xa, lv, hd, cbs, ncb, nrq⟩ := s
  simp only [] at hx
  subst hx
  unfold SchedInv at hinv
  rw [if_neg (by simp)] at hinv
  rcases hinv with ⟨hd', hl⟩ | ⟨n, hd', hl⟩
  · simp only [] at hd' hl
    subst hd'; subst hl
    unfold SchedState.clearLoop
    simp
  · simp only [] at hd' hl
    subst hd'; subst hl
    unfold SchedState.clearLoop SchedState.runDel
    simp

theorem drain_pair (env : Nat → List CbAct) (ids : List Nat) (s : SchedState)
    (h : s.handleDel.isSome) :
    SchedState.drain env s ids = ({ s with
        rafCbs := (drainIds env ids (s.rafCbs, s.nextCbId)).1
        nextCbId := (drainIds env ids (s.rafCbs, s.nextCbId)).2 },
      ids.map SchedEv.invoke) := by
  have hd := drain_spec env ids s h
  cases hres : SchedState.drain env s ids
  rw [hres] at hd
  simp only [Prod.mk.injEq]
  exact ⟨hd.1, hd.2⟩

theorem internalLoop_spec (env : Nat → List CbAct) (s : SchedState)
    (h : s.handleDel.isSome) :
    s.internalLoop env = (
      (SchedState.attachLoop { s with
          rafCbs := (drainIds env s.rafCbs ([], s.nextCbId)).1
          nextCbId := (drainIds env s.rafCbs ([], s.nextCbId)).2 }).1,
      s.rafCbs.map SchedEv.invoke ++ (SchedState.attachLoop { s with
          rafCbs := (drainIds env s.rafCbs ([], s.nextCbId)).1
          nextCbId := (drainIds env s.rafCbs ([], s.nextCbId)).2 }).2) := by
  have hpair := drain_pair env s.rafCbs { s with rafCbs := [] } h
  unfold SchedState.internalLoop
  simp only [hpair]

theorem sched_step_inv {env : Nat → List CbAct} {s t : SchedState}
    (hinv : SchedInv s) (st : SchedStep env s t) : SchedInv t := by
  cases st with
  | raf =>
      cases hdel : s.handleDel with
      | some p =>
          rw [reqRAF_of_pending s (by simp [hdel])]
          simpa [SchedInv] using hinv
      | none =>
          obtain ⟨hx, hl⟩ := inv_of_none s hinv hdel
          unfold SchedState.reqRAF
          simp only [hdel, Option.isNone_none, if_pos]
          apply attach_inv
          exact Or.inl (by simpa using hl)
  | cancel id =>
      simpa [SchedInv, SchedState.cancelRAF] using hinv
  | fire p hp =>
      have hsome : s.handleDel.isSome := by
        unfold SchedInv at hinv
        by_cases hx : s.xrActive
        · rw [if_pos hx] at hinv; obtain ⟨n, hn, _⟩ := hinv; simp [hn]
        · rw [if_neg hx] at hinv
          rcases hinv with ⟨_, hl⟩ | ⟨n, hn, _⟩
          · rw [hl] at hp; cases hp
          · simp [hn]
      have hlive : s.live = [p] := by
        unfold SchedInv at hinv
        by_cases hx : s.xrActive
        · rw [if_pos hx] at hinv
          obtain ⟨n, hn, hl⟩ := hinv
          rw [hl] at hp
          simp at hp
          rw [hl, hp]
        · rw [if_neg hx] at hinv
          rcases hinv with ⟨_, hl⟩ | ⟨n, hn, hl⟩
          · rw [hl] at hp; cases hp
          · rw [hl] at hp
            simp at hp
            rw [hl, hp]
      unfold SchedState.fire
      rw [internalLoop_spec env _ (by simpa using hsome)]
      apply attach_inv
      unfold AttachPre
      exact Or.inl (by simp [hlive])
  | reqXR b =>
      unfold SchedState.requestXR
      by_cases hx : s.xrActive
      · simpa [hx] using hinv
      · have hx' : s.xrActive = false := by simpa using hx
        have hcl := clearLoop_of_inactive s hinv hx'
        rw [show s.clearLoop = ((s.clearLoop).1, (s.clearLoop).2) from rfl, hcl]
        simp only [hx', Bool.false_eq_true, if_false]
        cases b with
        | true =>
            simp only [if_true]
            unfold SchedState.sessionStartStep
            have h2 : SchedInv (SchedState.attachLoop
                { s with live := [], handleDel := none, xrActive := true }).1 :=
              attach_inv _ (Or.inl rfl)
            exact attach_inv _ (inv_attachPre _ h2)
        | false =>
            simp only [Bool.false_eq_true, if_false]
            exact attach_inv _ (Or.inl rfl)
  | sessionStart h =>
      unfold SchedState.sessionStartStep
      apply attach_inv
      unfold SchedInv at hinv
      rw [if_neg (by simp [h])] at hinv
      rcases hinv with ⟨_, hl⟩ | ⟨n, hd, hl⟩
      · exact Or.inl (by simpa using hl)
      · exact Or.inr ⟨(n, ClockSrc.display), by simpa using hd,
          by simpa using hl, Or.inl rfl⟩
  | sessionEnd h =>
      unfold SchedInv at hinv
      rw [if_pos (by simp [h])] at hinv
      obtain ⟨n, hd, hl⟩ := hinv
      unfold SchedState.sessionEndStep
      have hcl : (SchedState.clearLoop
          { s with xrActive := false,
                   live := s.live.filter (·.2 ≠ ClockSrc.xrsession) }) =
          ({ s with xrActive := false, live := [], handleDel := none },
            ([] : List SchedEv)) := by
        unfold SchedState.clearLoop
        rw [show ({ s with xrActive := false,
                           live := s.live.filter (·.2 ≠ ClockSrc.xrsession) } :
            SchedState).handleDel = some (n, ClockSrc.xrsession) from hd]
        unfold SchedState.runDel
        simp [hl]
      simp only [hcl]
      exact attach_inv _ (Or.inl rfl)

theorem reachable_inv {env : Nat → List CbAct} {s : SchedState}
    (h : SchedReachable env s) : SchedInv s := by
  induction h with
  | start => exact inv_start
  | step _ hs ih => exact sched_step_inv ih hs

theorem inv_live_len (s : SchedState) (hinv : SchedInv s) :
    s.live.length ≤ 1 := by
  unfold SchedInv at hinv
  by_cases hx : s.xrActive
  · rw [if_pos hx] at hinv
    obtain ⟨n, _, hl⟩ := hinv
    simp [hl]
  · rw [if_neg hx] at hinv
    rcases hinv with ⟨_, hl⟩ | ⟨n, _, hl⟩ <;> simp [hl]

/-- Freshness of the ids minted while one callback's actions run. -/
theorem applyActsIds_fresh (acts : List CbAct) (ids : List Nat) (n : Nat) :
    n ≤ (applyActsIds acts (ids, n)).2 ∧
    ∀ i ∈ (applyActsIds acts (ids, n)).1,
      i ∈ ids ∨ (n ≤ i ∧ i < (applyActsIds acts (ids, n)).2) := by
  induction acts generalizing ids n with
  | nil =>
      refine ⟨Nat.le_refl _, ?_⟩
      intro i hi
      exact Or.inl (by simpa [applyActsIds] using hi)
  | cons a rest ih =>
      cases a with
      | reg =>
          have h := ih (ids ++ [n]) (n + 1)
          refine ⟨Nat.le_of_succ_le h.1, ?_⟩
          intro i hi
          simp only [applyActsIds] at hi ⊢
          rcases h.2 i hi with hin | ⟨h1, h2⟩
          · rcases List.mem_append.mp hin with hin | hin
            · exact Or.inl hin
            · simp at hin
              subst hin
              exact Or.inr ⟨Nat.le_refl _, Nat.lt_of_lt_of_le (Nat.lt_succ_self _) h.1⟩
          · exact Or.inr ⟨Nat.le_of_succ_le h1, h2⟩
      | cancel j =>
          have h := ih (ids.filter (· ≠ j)) n
          refine ⟨h.1, ?_⟩
          intro i hi
          simp only [applyActsIds] at hi ⊢
          rcases h.2 i hi with hin | hr
          · exact Or.inl (List.mem_of_mem_filter hin)
          · exact Or.inr hr

/-- Freshness of the ids minted across a whole drain. -/
theorem drainIds_fresh (env : Nat → List CbAct) (cbs : List Nat)
    (ids : List Nat) (n : Nat) :
    n ≤ (drainIds env cbs (ids, n)).2 ∧
    ∀ i ∈ (drainIds env cbs (ids, n)).1,
      i ∈ ids ∨ (n ≤ i ∧ i < (drainIds env cbs (ids, n)).2) := by
  induction cbs generalizing ids n with
  | nil =>
      refine ⟨Nat.le_refl _, ?_⟩
      intro i hi
      exact Or.inl (by simpa [drainIds] using hi)
  | cons c rest ih =>
      have ha := applyActsIds_fresh (env c) ids n
      have hb := ih (applyActsIds (env c) (ids, n)).1
        (applyActsIds (env c) (ids, n)).2
      rw [Prod.mk.eta] at hb
      simp only [drainIds]
      refine ⟨Nat.le_trans ha.1 hb.1, ?_⟩
      intro i hi
      rcases hb.2 i hi with hin | ⟨h1, h2⟩
      · rcases ha.2 i hin with hin2 | ⟨g1, g2⟩
        · exact Or.inl hin2
        · exact Or.inr ⟨g1, Nat.lt_of_lt_of_le g2 hb.1⟩
      · exact Or.inr ⟨Nat.le_trans ha.1 h1, h2⟩

theorem clearLoop_none (s : SchedState) (h : s.handleDel = none) :
    s.clearLoop = (s, []) := by
  unfold SchedState.clearLoop
  rw [h]

theorem attach_pair (s : SchedState) (h : AttachPre s) :
    s.attachLoop = ({ s with
        live := [(s.nextReqId, s.curSrc)]
        handleDel := some (s.nextReqId, s.curSrc)
        nextReqId := s.nextReqId + 1 },
      (s.clearLoop).2 ++ [SchedEv.frameReq s.curSrc s.nextReqId]) := by
  have h1 := attach_spec s h
  have h2 := attach_events s
  cases hres : s.attachLoop
  rw [hres] at h1 h2
  simp only [Prod.mk.injEq]
  exact ⟨h1, h2⟩

theorem attach_rafCbs (s : SchedState) :
    (s.attachLoop).1.rafCbs = s.rafCbs ∧
    (s.attachLoop).1.nextCbId = s.nextCbId := by
  have hst := clearLoop_stable s
  unfold SchedState.attachLoop SchedState.requestFrom
  simp [hst.2.1, hst.2.2.1]

/-- C3: at every reachable state of the XRRenderer loop scheduler there is at
most one outstanding next-frame request; and every clock-source switch —
session start (`onSessionStart`), session loss (`onSessionLost`), or an
explicit re-attach (`_attachLoop`) — cancels the previously pending request
before issuing a new one against the new source: `_attachLoop`'s event trace
is its cancel events followed by exactly one request event, and afterwards
exactly the newly issued request (against the now-current source) is
outstanding. -/
theorem C3_single_outstanding_request (env : Nat → List CbAct)
    (s : SchedState) (h : SchedReachable env s) :
    s.live.length ≤ 1 ∧
    (s.attachLoop).2 =
      (s.clearLoop).2 ++ [SchedEv.frameReq s.curSrc s.nextReqId] ∧
    (∀ e ∈ (s.clearLoop).2, ∃ src i, e = SchedEv.frameCancel src i) ∧
    (s.attachLoop).1.live = [(s.nextReqId, s.curSrc)] ∧
    (s.xrActive = false →
      (s.sessionStartStep).1.live = [(s.nextReqId, ClockSrc.xrsession)]) ∧
    (s.xrActive = true →
      (s.sessionEndStep).1.live = [(s.nextReqId, ClockSrc.display)]) := by
  have hinv := reachable_inv h
  refine ⟨inv_live_len s hinv, attach_events s, clearLoop_events_cancel s,
    ?_, ?_, ?_⟩
  · rw [attach_spec s (inv_attachPre s hinv)]
  · intro hx
    unfold SchedState.sessionStartStep
    have hpre : AttachPre { s with xrActive := true } := by
      unfold SchedInv at hinv
      rw [if_neg (by simp [hx])] at hinv
      rcases hinv with ⟨_, hl⟩ | ⟨n, hd, hl⟩
      · exact Or.inl (by simpa using hl)
      · exact Or.inr ⟨(n, ClockSrc.display), by simpa using hd,
          by simpa using hl, Or.inl rfl⟩
    rw [attach_spec _ hpre]
    simp [SchedState.curSrc]
  · intro hx
    unfold SchedInv at hinv
    rw [if_pos (by simp [hx])] at hinv
    obtain ⟨n, hd, hl⟩ := hinv
    unfold SchedState.sessionEndStep
    have hcl : (SchedState.clearLoop
        { s with xrActive := false,
                 live := s.live.filter (·.2 ≠ ClockSrc.xrsession) }) =
        ({ s with xrActive := false, live := [], handleDel := none },
          ([] : List SchedEv)) := by
      unfold SchedState.clearLoop
      rw [show ({ s with xrActive := false,
                         live := s.live.filter (·.2 ≠ ClockSrc.xrsession) } :
          SchedState).handleDel = some (n, ClockSrc.xrsession) from hd]
      unfold SchedState.runDel
      simp [hl]
    simp only [hcl]
    rw [attach_spec _ (Or.inl rfl)]
    simp [SchedState.curSrc]

/-- Witness for C3: the scheduler's construction state is reachable and the
theorem's conclusions evaluate there. -/
theorem C3_single_outstanding_request_witness :
    SchedState.start.live.length ≤ 1 ∧
    (SchedState.start.attachLoop).2 =
      (SchedState.start.clearLoop).2 ++
        [SchedEv.frameReq SchedState.start.curSrc SchedState.start.nextReqId] ∧
    (∀ e ∈ (SchedState.start.clearLoop).2,
      ∃ src i, e = SchedEv.frameCancel src i) ∧
    (SchedState.start.attachLoop).1.live =
      [(SchedState.start.nextReqId, SchedState.start.curSrc)] ∧
    (SchedState.start.xrActive = false →
      (SchedState.start.sessionStartStep).1.live =
        [(SchedState.start.nextReqId, ClockSrc.xrsession)]) ∧
    (SchedState.start.xrActive = true →
      (SchedState.start.sessionEndStep).1.live =
        [(SchedState.start.nextReqId, ClockSrc.display)]) :=
  C3_single_outstanding_request (fun _ => []) SchedState.start
    SchedReachable.start

/-- C5: within one tick of `_internalLoop`, every one-shot callback that is
registered (and not cancelled) before the tick began — i.e. every entry of
the pending map — is invoked exactly once, in insertion order, before the
next frame is requested (the trace is the invocations in map order, then only
cancel events, then the single request event); every callback registered
during the drain is not invoked in that tick and survives into the next
tick's pending map (the post-tick map consists exactly of the in-drain
registrations, in order, less any in-drain cancellations). -/
theorem C5_drain_order (env : Nat → List CbAct) (s : SchedState)
    (hdel : s.handleDel.isSome) (hfresh : ∀ i ∈ s.rafCbs, i < s.nextCbId) :
    (∃ mid, (s.internalLoop env).2 =
        s.rafCbs.map SchedEv.invoke ++ mid ++
          [SchedEv.frameReq s.curSrc s.nextReqId] ∧
      ∀ e ∈ mid, ∃ src i, e = SchedEv.frameCancel src i) ∧
    (s.internalLoop env).1.rafCbs =
      (drainIds env s.rafCbs ([], s.nextCbId)).1 ∧
    (∀ i ∈ (drainIds env s.rafCbs ([], s.nextCbId)).1,
      i ∉ s.rafCbs ∧ SchedEv.invoke i ∉ (s.internalLoop env).2) := by
  have hspec := internalLoop_spec env s hdel
  have hD := attach_events ({ s with
      rafCbs := (drainIds env s.rafCbs ([], s.nextCbId)).1
      nextCbId := (drainIds env s.rafCbs ([], s.nextCbId)).2 } : SchedState)
  have hCcancel := clearLoop_events_cancel ({ s with
      rafCbs := (drainIds env s.rafCbs ([], s.nextCbId)).1
      nextCbId := (drainIds env s.rafCbs ([], s.nextCbId)).2 } : SchedState)
  have hRaf := attach_rafCbs ({ s with
      rafCbs := (drainIds env s.rafCbs ([], s.nextCbId)).1
      nextCbId := (drainIds env s.rafCbs ([], s.nextCbId)).2 } : SchedState)
  have htrace : (s.internalLoop env).2 =
      s.rafCbs.map SchedEv.invoke ++
        ((SchedState.clearLoop { s with
            rafCbs := (drainIds env s.rafCbs ([], s.nextCbId)).1
            nextCbId := (drainIds env s.rafCbs ([], s.nextCbId)).2 }).2 ++
          [SchedEv.frameReq s.curSrc s.nextReqId]) := by
    rw [hspec]
    simp only []
    rw [hD]
    rfl
  have hnew : ∀ i ∈ (drainIds env s.rafCbs ([], s.nextCbId)).1,
      s.nextCbId ≤ i := by
    intro i hi
    rcases (drainIds_fresh env s.rafCbs [] s.nextCbId).2 i hi with hin | ⟨h1, _⟩
    · cases hin
    · exact h1
  refine ⟨⟨(SchedState.clearLoop { s with
      rafCbs := (drainIds env s.rafCbs ([], s.nextCbId)).1
      nextCbId := (drainIds env s.rafCbs ([], s.nextCbId)).2 }).2,
      by rw [htrace]; simp, hCcancel⟩, ?_, ?_⟩
  · rw [hspec]
    simpa using hRaf.1
  · intro i hi
    have hge := hnew i hi
    have hnotold : i ∉ s.rafCbs := fun hmem =>
      Nat.lt_irrefl i (Nat.lt_of_lt_of_le (hfresh i hmem) hge)
    refine ⟨hnotold, ?_⟩
    rw [htrace]
    intro hmem
    rcases List.mem_append.mp hmem with hmem | hmem
    · obtain ⟨a, ha, hai⟩ := List.mem_map.mp hmem
      injection hai with h2
      subst h2
      exact hnotold ha
    · rcases List.mem_append.mp hmem with hmem | hmem
      · obtain ⟨src, j, hj⟩ := hCcancel _ hmem
        cases hj
      · simp at hmem

/-- A concrete tick state for exercising the drain: a stale stored handle,
two pending callbacks (ids 0 and 1). -/
def c5state : SchedState :=
  { xrActive := false
    live := [(5, ClockSrc.display)]
    handleDel := some (5, ClockSrc.display)
    rafCbs := [0, 1]
    nextCbId := 2
    nextReqId := 6 }

/-- A concrete callback environment: callback 0 registers a fresh callback
during the drain; all others do nothing. -/
def c5env : Nat → List CbAct := fun i => if i = 0 then [CbAct.reg] else []

/-- Witness for C5 at `c5state` with environment `c5env`. -/
theorem C5_drain_order_witness :
    (c5state.handleDel.isSome ∧ ∀ i ∈ c5state.rafCbs, i < c5state.nextCbId) ∧
    ((∃ mid, (c5state.internalLoop c5env).2 =
        c5state.rafCbs.map SchedEv.invoke ++ mid ++
          [SchedEv.frameReq c5state.curSrc c5state.nextReqId] ∧
      ∀ e ∈ mid, ∃ src i, e = SchedEv.frameCancel src i) ∧
    (c5state.internalLoop c5env).1.rafCbs =
      (drainIds c5env c5state.rafCbs ([], c5state.nextCbId)).1 ∧
    (∀ i ∈ (drainIds c5env c5state.rafCbs ([], c5state.nextCbId)).1,
      i ∉ c5state.rafCbs ∧
        SchedEv.invoke i ∉ (c5state.internalLoop c5env).2)) :=
  ⟨⟨rfl, by decide⟩, C5_drain_order c5env c5state rfl (by decide)⟩

/-- C8: `requestXR` resolves immediately — no negotiation event, state
untouched, a frame request already pending — when a session is already
active; otherwise its trace is cancel events (the loop pause) before the
negotiation, and ends with a frame request whether negotiation succeeded or
failed; after `requestXR` settles exactly one frame request is pending. -/
theorem C8_requestXR_loop_restored (env : Nat → List CbAct) (s : SchedState)
    (h : SchedReachable env s) (b : Bool) :
    (s.xrActive = true → s.requestXR b = (s, []) ∧ s.live ≠ []) ∧
    (s.xrActive = false → ∃ pre mid n src,
      (s.requestXR b).2 =
        pre ++ SchedEv.negotiate b :: (mid ++ [SchedEv.frameReq src n]) ∧
      ∀ e ∈ pre, ∃ src2 i, e = SchedEv.frameCancel src2 i) ∧
    (s.requestXR b).1.live.length = 1 := by
  have hinv := reachable_inv h
  by_cases hx : s.xrActive = true
  · have hreq : s.requestXR b = (s, []) := by
      unfold SchedState.requestXR
      rw [if_pos hx]
    unfold SchedInv at hinv
    rw [if_pos hx] at hinv
    obtain ⟨n, hd, hl⟩ := hinv
    refine ⟨fun _ => ⟨hreq, by simp [hl]⟩,
      fun hx2 => absurd hx (by simp [hx2]), ?_⟩
    rw [hreq]
    simp [hl]
  · have hx' : s.xrActive = false := by simpa using hx
    obtain ⟨xa, lv, hd, cbs, ncb, nrq⟩ := s
    simp only [] at hx'
    subst hx'
    unfold SchedInv at hinv
    rw [if_neg (by simp)] at hinv
    refine ⟨fun hx2 => by simp at hx2, fun _ => ?_, ?_⟩
    · rcases hinv with ⟨hd', hl'⟩ | ⟨n, hd', hl'⟩ <;>
        simp only [] at hd' hl' <;> subst hd' <;> subst hl' <;> cases b
      · refine ⟨[], [], nrq, ClockSrc.display, ?_, by simp⟩
        simp [SchedState.requestXR, SchedState.clearLoop, SchedState.runDel,
          SchedState.sessionStartStep, SchedState.attachLoop,
          SchedState.requestFrom, SchedState.curSrc]
      · refine ⟨[], [SchedEv.frameReq ClockSrc.xrsession nrq,
          SchedEv.frameCancel ClockSrc.xrsession nrq], nrq + 1,
          ClockSrc.xrsession, ?_, by simp⟩
        simp [SchedState.requestXR, SchedState.clearLoop, SchedState.runDel,
          SchedState.sessionStartStep, SchedState.attachLoop,
          SchedState.requestFrom, SchedState.curSrc]
      · refine ⟨[SchedEv.frameCancel ClockSrc.display n], [], nrq,
          ClockSrc.display, ?_, by simp⟩
        simp [SchedState.requestXR, SchedState.clearLoop, SchedState.runDel,
          SchedState.sessionStartStep, SchedState.attachLoop,
          SchedState.requestFrom, SchedState.curSrc]
      · refine ⟨[SchedEv.frameCancel ClockSrc.display n],
          [SchedEv.frameReq ClockSrc.xrsession nrq,
           SchedEv.frameCancel ClockSrc.xrsession nrq], nrq + 1,
          ClockSrc.xrsession, ?_, by simp⟩
        simp [SchedState.requestXR, SchedState.clearLoop, SchedState.runDel,
          SchedState.sessionStartStep, SchedState.attachLoop,
          SchedState.requestFrom, SchedState.curSrc]
    · rcases hinv with ⟨hd', hl'⟩ | ⟨n, hd', hl'⟩ <;>
        simp only [] at hd' hl' <;> subst hd' <;> subst hl' <;> cases b <;>
        simp [SchedState.requestXR, SchedState.clearLoop, SchedState.runDel,
          SchedState.sessionStartStep, SchedState.attachLoop,
          SchedState.requestFrom, SchedState.curSrc]

/-- Witness for C8 at the initial scheduler state with a failing
negotiation. -/
theorem C8_requestXR_loop_restored_witness :
    (SchedState.start.xrActive = true →
      SchedState.start.requestXR false = (SchedState.start, []) ∧
      SchedState.start.live ≠ []) ∧
    (SchedState.start.xrActive = false → ∃ pre mid n src,
      (SchedState.start.requestXR false).2 =
        pre ++ SchedEv.negotiate false :: (mid ++ [SchedEv.frameReq src n]) ∧
      ∀ e ∈ pre, ∃ src2 i, e = SchedEv.frameCancel src2 i) ∧
    (SchedState.start.requestXR false).1.live.length = 1 :=
  C8_requestXR_loop_restored (fun _ => []) SchedState.start
    SchedReachable.start false

/-! ## Registry lemmas -/

theorem foldl_nativeOnly_keep (xs : List Nat) (init : List Nat) :
    xs.foldl (fun acc l => regOnLayerDestroy acc l true) init = init := by
  induction xs generalizing init with
  | nil => rfl
  | cons x xs ih => simp [List.foldl, regOnLayerDestroy, ih]

theorem toFinset_erase_of_nodup (r : List Nat) (h : r.Nodup) (l : Nat) :
    (r.erase l).toFinset = r.toFinset.erase l := by
  ext x
  simp [List.Nodup.mem_erase_iff h, Finset.mem_erase, and_comm]

theorem toFinset_filter_ne (r : List Nat) (l : Nat) :
    (r.filter (· ≠ l)).toFinset = r.toFinset.erase l := by
  ext x
  simp [List.mem_filter, and_comm]

theorem insert_erase_self (a : Finset Nat) (l : Nat) :
    insert l (a.erase l) = insert l a := by
  ext x
  by_cases hx : x = l <;> simp [hx]

theorem regRun_invariant (ops : List RegOp) (r : List Nat) (a : Finset Nat)
    (hnodup : r.Nodup) (hset : r.toFinset = a) :
    (regRun r ops).Nodup ∧ (regRun r ops).toFinset = aliveSet a ops := by
  induction ops generalizing r a with
  | nil => exact ⟨hnodup, hset⟩
  | cons op rest ih =>
      cases op with
      | register l =>
          simp only [regRun, regStep, aliveSet]
          apply ih
          · exact List.Nodup.cons
              (fun hmem => absurd ((List.Nodup.mem_erase_iff hnodup).mp hmem).1
                (by simp)) (hnodup.erase l)
          · rw [List.toFinset_cons, toFinset_erase_of_nodup r hnodup l, hset,
              insert_erase_self]
      | destroy l =>
          have hstep : regStep r (RegOp.destroy l) = r.filter (· ≠ l) := by
            simp [regStep, regOnLayerDestroy]
          simp only [regRun, hstep, aliveSet]
          apply ih
          · exact hnodup.filter _
          · rw [toFinset_filter_ne, hset]
      | sessionStart =>
          simp only [regRun, regStep, aliveSet, foldl_nativeOnly_keep]
          exact ih r a hnodup hset
      | sessionLost =>
          simp only [regRun, regStep, aliveSet, foldl_nativeOnly_keep]
          exact ih r a hnodup hset

/-- C6: for every sequence of `registerLayer`/`destroy` operations, with any
number of interleaved session start/loss events, the registry holds no
duplicates, its membership is exactly the set of distinct registered layers
not yet fully destroyed, its size is that set's cardinality, and session
start/loss events never change the registry at all. -/
theorem C6_registry_size_matches (ops : List RegOp) :
    (regRun [] ops).Nodup ∧
    (regRun [] ops).toFinset = aliveSet ∅ ops ∧
    (regRun [] ops).length = (aliveSet ∅ ops).card ∧
    (∀ r, regStep r RegOp.sessionStart = r ∧
      regStep r RegOp.sessionLost = r) := by
  have h := regRun_invariant ops [] ∅ List.nodup_nil (by simp)
  refine ⟨h.1, h.2, ?_, ?_⟩
  · rw [← h.2]
    exact (List.toFinset_card_of_nodup h.1).symm
  · intro r
    constructor <;> simp [regStep, foldl_nativeOnly_keep]

/-! ## Logical-layer theorems -/

theorem updateNative_emulated (s : LayerSt) :
    (s.updateNative).emulatedLayers = s.emulatedLayers := by
  unfold LayerSt.updateNative LayerSt.updateNativeBase
  split <;> rfl

theorem updateNative_nativeLayer (s : LayerSt) :
    (s.updateNative).nativeLayer = s.nativeLayer := by
  unfold LayerSt.updateNative LayerSt.updateNativeBase
  split <;> rfl

theorem destroyFallback_emulated (s : LayerSt) :
    (s.destroyFallback).emulatedLayers = none := by
  unfold LayerSt.destroyFallback
  rcases hem : s.emulatedLayers with _ | ms <;> simp [hem]

theorem createFallback_nativeLayer (s : LayerSt) :
    (s.createFallback).nativeLayer = s.nativeLayer := by
  unfold LayerSt.createFallback LayerSt.createFallbackLayers
  rcases hem : s.emulatedLayers with _ | ms <;> split_ifs <;> simp [hem]

/-- C2: after any `bindLayer` call — with any argument, from any prior
state — the layer is never simultaneously in native and fallback state
(`nativeLayer` and `emulatedLayers` are never both populated), and
`isNative` holds exactly when a native handle is present and no fallback
primitives are held. -/
theorem C2_native_fallback_exclusive (s : LayerSt) (layer : Option Nat) :
    ((s.bindLayer layer).1.nativeLayer.isSome &&
      (s.bindLayer layer).1.emulatedLayers.isSome) = false ∧
    (s.bindLayer layer).1.isNative =
      ((s.bindLayer layer).1.nativeLayer.isSome &&
        (s.bindLayer layer).1.emulatedLayers.isNone) := by
  refine ⟨?_, rfl⟩
  unfold LayerSt.bindLayer
  cases layer with
  | some v =>
      split_ifs <;> simp [updateNative_emulated, destroyFallback_emulated]
  | none =>
      split_ifs with hguard
      · simp [createFallback_nativeLayer, LayerSt.destroyNative]
      · have hnone : s.nativeLayer = none := by
          cases hnl : s.nativeLayer with
          | none => rfl
          | some v => exact absurd ⟨by simp [hnl], by simp [hnl]⟩ hguard
        simp [createFallback_nativeLayer, hnone]

/-- States one logical layer can be in after any operation sequence. -/
def LayerReachable (s : LayerSt) : Prop :=
  ∃ st ops, s = LayerSt.runOps (LayerSt.initial st) ops

/-- The dirty flag stays `true` forever and every existing transform object
is older than the id counter. -/
def LayerInv (s : LayerSt) : Prop :=
  s.transformDirty = true ∧
  (∀ t, s.nativeTransform = some t → t.ident < s.objCtr) ∧
  (∀ t, s.pushedTransform = some t → t.ident < s.objCtr)

theorem inv_destroyNative (s : LayerSt) (h : LayerInv s) :
    LayerInv s.destroyNative := by
  refine ⟨h.1, ?_, ?_⟩ <;> intro t ht <;>
    simp [LayerSt.destroyNative] at ht

theorem inv_destroyFallback (s : LayerSt) (h : LayerInv s) :
    LayerInv s.destroyFallback := by
  unfold LayerSt.destroyFallback
  rcases hem : s.emulatedLayers with _ | ms
  · exact h
  · exact ⟨h.1, h.2.1, h.2.2⟩

theorem inv_createFallback (s : LayerSt) (h : LayerInv s) :
    LayerInv s.createFallback := by
  unfold LayerSt.createFallback LayerSt.createFallbackLayers
  rcases hem : s.emulatedLayers with _ | ms
  · split_ifs <;> exact ⟨h.1, h.2.1, h.2.2⟩
  · exact h

theorem inv_setNative (s : LayerSt) (v : Nat) (h : LayerInv s) :
    LayerInv { s with nativeLayer := some v } :=
  ⟨h.1, h.2.1, h.2.2⟩

theorem inv_updateNativeBase (s : LayerSt) (h : LayerInv s) :
    LayerInv s.updateNativeBase := by
  unfold LayerSt.updateNativeBase
  split
  · refine ⟨h.1, ?_, ?_⟩
    · intro t ht
      simp only [Option.some.injEq] at ht
      rw [← ht]
      exact Nat.lt_succ_self _
    · intro t ht
      exact Nat.lt_succ_of_lt (h.2.2 t ht)
  · exact h

theorem inv_updateNative (s : LayerSt) (h : LayerInv s) :
    LayerInv s.updateNative := by
  have hb := inv_updateNativeBase s h
  exact ⟨hb.1, hb.2.1, fun t ht => hb.2.1 t ht⟩

theorem inv_bindLayer (s : LayerSt) (layer : Option Nat) (h : LayerInv s) :
    LayerInv (s.bindLayer layer).1 := by
  unfold LayerSt.bindLayer
  cases layer with
  | some v =>
      split_ifs with hg
      · exact inv_updateNative _ (inv_setNative _ v
          (inv_destroyFallback _ (inv_destroyNative s h)))
      · exact inv_updateNative _ (inv_setNative _ v (inv_destroyFallback _ h))
  | none =>
      split_ifs with hg
      · exact inv_createFallback _ (inv_destroyNative s h)
      · exact inv_createFallback _ h

theorem layer_inv_op (s : LayerSt) (op : LayerOp) (h : LayerInv s) :
    LayerInv (s.applyOp op) := by
  cases op with
  | bind layer => exact inv_bindLayer s layer h
  | update =>
      show LayerInv s.update
      unfold LayerSt.update
      split_ifs
      · exact inv_updateNative s h
      · exact h
  | needUpdateTransform => exact ⟨rfl, h.2.1, h.2.2⟩
  | move p2 q2 => exact ⟨h.1, h.2.1, h.2.2⟩
  | destroy => exact inv_destroyNative s h

theorem layer_inv_run (s : LayerSt) (ops : List LayerOp) (h : LayerInv s) :
    LayerInv (s.runOps ops) := by
  induction ops generalizing s with
  | nil => exact h
  | cons op rest ih => exact ih _ (layer_inv_op s op h)

theorem layer_inv_reachable (s : LayerSt) (h : LayerReachable s) :
    LayerInv s := by
  obtain ⟨st, ops, rfl⟩ := h
  exact layer_inv_run _ ops ⟨rfl, by simp [LayerSt.initial], by simp [LayerSt.initial]⟩

/-- C10: in every reachable layer state the transform dirty flag is still
`true` (it is initialised to `true` and nothing ever clears it), and
consequently on a layer holding a native handle every `update()` call
constructs a brand-new `XRRigidTransform` (distinct from any transform
object the layer previously held) from the current position/quaternion and
pushes it to the native layer — the dirty-flag guard never suppresses the
recomputation. -/
theorem C10_dirty_flag_never_cleared (s : LayerSt) (h : LayerReachable s) :
    s.transformDirty = true ∧
    (s.nativeLayer.isSome = true →
      (s.update).nativeTransform = some ⟨s.position, s.quat, s.objCtr⟩ ∧
      (s.update).objCtr = s.objCtr + 1 ∧
      (s.update).pushedTransform = (s.update).nativeTransform ∧
      (∀ t, s.nativeTransform = some t →
        some t ≠ (s.update).nativeTransform)) := by
  obtain ⟨hd, hn, _⟩ := layer_inv_reachable s h
  refine ⟨hd, fun hnl => ?_⟩
  have hupd : s.update = { s.updateNativeBase with
      pushedTransform := (s.updateNativeBase).nativeTransform } := by
    unfold LayerSt.update LayerSt.updateNative
    rw [if_pos hnl]
  have hbase : s.updateNativeBase = { s with
      nativeTransform := some ⟨s.position, s.quat, s.objCtr⟩
      objCtr := s.objCtr + 1 } := by
    unfold LayerSt.updateNativeBase
    rw [if_pos (by simp [hd])]
  rw [hupd, hbase]
  refine ⟨rfl, rfl, rfl, ?_⟩
  intro t ht heq
  simp only [Option.some.injEq] at heq
  have := hn t ht
  rw [heq] at this
  exact Nat.lt_irrefl _ this

/-- Witness for C10 at the state reached by binding native handle 7 to a
fresh (non-stereo) quad layer. -/
theorem C10_dirty_flag_never_cleared_witness :
    LayerReachable (LayerSt.runOps (LayerSt.initial false)
      [LayerOp.bind (some 7)]) ∧
    (LayerSt.runOps (LayerSt.initial false)
      [LayerOp.bind (some 7)]).transformDirty = true ∧
    ((LayerSt.runOps (LayerSt.initial false)
        [LayerOp.bind (some 7)]).nativeLayer.isSome = true →
      ((LayerSt.runOps (LayerSt.initial false)
          [LayerOp.bind (some 7)]).update).nativeTransform =
        some ⟨(LayerSt.runOps (LayerSt.initial false)
            [LayerOp.bind (some 7)]).position,
          (LayerSt.runOps (LayerSt.initial false)
            [LayerOp.bind (some 7)]).quat,
          (LayerSt.runOps (LayerSt.initial false)
            [LayerOp.bind (some 7)]).objCtr⟩ ∧
      ((LayerSt.runOps (LayerSt.initial false)
          [LayerOp.bind (some 7)]).update).objCtr =
        (LayerSt.runOps (LayerSt.initial false)
          [LayerOp.bind (some 7)]).objCtr + 1 ∧
      ((LayerSt.runOps (LayerSt.initial false)
          [LayerOp.bind (some 7)]).update).pushedTransform =
        ((LayerSt.runOps (LayerSt.initial false)
          [LayerOp.bind (some 7)]).update).nativeTransform ∧
      (∀ t, (LayerSt.runOps (LayerSt.initial false)
          [LayerOp.bind (some 7)]).nativeTransform = some t →
        some t ≠ ((LayerSt.runOps (LayerSt.initial false)
          [LayerOp.bind (some 7)]).update).nativeTransform)) :=
  ⟨⟨false, [LayerOp.bind (some 7)], rfl⟩,
    C10_dirty_flag_never_cleared _ ⟨false, [LayerOp.bind (some 7)], rfl⟩⟩

/-! ## Session-state theorems -/

/-- The legacy-host state after `requestSession`/`init` (no layer support,
active session, empty layer list). -/
def c1s0 : XRSt := (XRSt.mk0 false).init

/-- The legacy-host state after the base layer has been allocated: exactly
one layer in the active list. -/
def c1s1 : XRSt := getLayerState (c1s0.getLayer LType.base) c1s0

/-- C1 (code bug demonstration): on a host without native-layer support the
claim says any `getLayer` call made while one layer is already in the
active-layer list warns and returns `null`, leaving the list unchanged.  The
code's guard tests `this.layers.length > 1` instead of `>= 1`: with exactly
one layer in the list, `getLayer(gl, "base")` mints and returns a *second*
legacy layer and grows the list to length 2.  The non-base part of the claim
does hold: at the same state, a `"quad"` request warns, returns `null`, and
leaves the state untouched. -/
theorem C1_second_base_layer_minted :
    (getLayerResult (c1s0.getLayer LType.base)).isSome = true ∧
    c1s1.layers.length = 1 ∧
    (getLayerResult (c1s1.getLayer LType.base)).isSome = true ∧
    (getLayerState (c1s1.getLayer LType.base) c1s1).layers.length = 2 ∧
    getLayerResult (c1s1.getLayer LType.quad) = none ∧
    getLayerState (c1s1.getLayer LType.quad) c1s1 = c1s1 ∧
    getLayerEffects (c1s1.getLayer LType.quad) = [XREff.warn] := by
  decide

/-- The layer-capable state after `requestSession`/`init`. -/
def c4s0 : XRSt := (XRSt.mk0 true).init

/-- The layer-capable state after the base (projection) layer and its render
target have been allocated. -/
def c4s1 : XRSt := getLayerState (c4s0.getLayer LType.base) c4s0

/-- C4 (code bug demonstration): `clear()` does null the session, space,
layer list, base layer, base-layer render target and binding, destroys the
native layers and the base-layer target, and a second `clear()` is a no-op;
but it does *not* detach the session's `end`/`inputsourceschange` listeners.
`init` registered `this.onEnd.bind(this)` — a fresh function object — while
`clear` passes `this.onEnd` (the constructor-bound function) to
`removeEventListener`, which therefore matches nothing: the detached session
object still holds both listeners (tokens 2 and 3, not the constructor
tokens 0 and 1). -/
theorem C4_clear_leaves_listeners_attached :
    ((c4s1.clear).1.session = none ∧
     (c4s1.clear).1.spaceSet = false ∧
     (c4s1.clear).1.layers = [] ∧
     (c4s1.clear).1.baseLayer = none ∧
     (c4s1.clear).1.baseLayerTarget = none ∧
     (c4s1.clear).1.glBinding = none) ∧
    (XREff.destroyLayer 0 ∈ (c4s1.clear).2.2 ∧
     XREff.destroyTarget 1 ∈ (c4s1.clear).2.2) ∧
    (c4s1.clear).2.1 = some ⟨[2], [3]⟩ ∧
    ((c4s1.clear).1).clear = ((c4s1.clear).1, none, []) := by
  decide

/-- C7: `XRState.requestAnimationFrame` throws exactly when no session is
active; when one is, the registered wrapper records the incoming frame as
`lastXRFrame` only for the duration of the callback — the callback observes
`lastXRFrame = some frame` — and `lastXRFrame` is nulled unconditionally as
soon as the callback returns. -/
theorem C7_raf_frame_window (s : XRSt) (cb : Nat → XRSt → XRSt) :
    (s.session.isNone = true →
      s.requestAnimationFrame cb =
        Except.error "Try to requiest anima frame on disabled XRState") ∧
    (s.session.isNone = false →
      s.requestAnimationFrame cb = Except.ok (XRSt.rafWrapper cb)) ∧
    (∀ frame s0, XRSt.rafWrapper cb frame s0 =
        { cb frame { s0 with lastXRFrame := some frame } with
            lastXRFrame := none } ∧
      ({ s0 with lastXRFrame := some frame } : XRSt).lastXRFrame =
        some frame ∧
      (XRSt.rafWrapper cb frame s0).lastXRFrame = none) := by
  refine ⟨fun h => ?_, fun h => ?_, fun frame s0 => ⟨rfl, rfl, rfl⟩⟩
  · unfold XRSt.requestAnimationFrame
    rw [if_pos h]
  · unfold XRSt.requestAnimationFrame
    rw [if_neg (by simp [h])]

/-- Witness for C7: the error case at the fresh (sessionless) state, and the
success case plus the frame-window behaviour at an active state. -/
theorem C7_raf_frame_window_witness :
    ((XRSt.mk0 true).session.isNone = true ∧
      (XRSt.mk0 true).requestAnimationFrame (fun _ s => s) =
        Except.error "Try to requiest anima frame on disabled XRState") ∧
    ((XRSt.mk0 true).init.session.isNone = false ∧
      (XRSt.mk0 true).init.requestAnimationFrame (fun _ s => s) =
        Except.ok (XRSt.rafWrapper (fun _ s => s)) ∧
      (XRSt.rafWrapper (fun _ s => s) 4 ((XRSt.mk0 true).init)).lastXRFrame =
        none) :=
  ⟨⟨rfl, (C7_raf_frame_window (XRSt.mk0 true) (fun _ s => s)).1 rfl⟩,
   ⟨rfl, (C7_raf_frame_window ((XRSt.mk0 true).init) (fun _ s => s)).2.1 rfl,
    ((C7_raf_frame_window ((XRSt.mk0 true).init) (fun _ s => s)).2.2 4
      ((XRSt.mk0 true).init)).2.2⟩⟩

/-- The layer-capable state after `requestSession`/`init`. -/
def c9s0 : XRSt := (XRSt.mk0 true).init

/-- Result of `onSessionStart`'s forced base-layer allocation. -/
def c9res : Except String (Option NLayer × XRSt × List XREff) :=
  c9s0.getLayer LType.base

/-- The native base (projection) layer `onSessionStart` allocates. -/
def c9nl : NLayer := ⟨0, LType.base, false⟩

/-- The state after the base layer is allocated. -/
def c9s1 : XRSt := getLayerState c9res c9s0

/-- The effects of the base-layer allocation. -/
def c9effs : List XREff := getLayerEffects c9res

/-- The state after `registerLayer(quadLayer)` has bound a native quad layer
(via `bindNativeLayerTo` → `getLayer(gl, "quad", options)`). -/
def c9s2 : XRSt := getLayerState (c9s1.getLayer LType.quad) c9s1

/-- C9: whenever `getLayer` successfully creates a layer, the new layer is
inserted at the front of the active-layer list and a render-state sync is
triggered (the call's one effect is `updateRenderState` of the new state);
in particular, on a layer-capable host, after session start allocates the
base layer and `registerLayer(quadLayer)` binds a quad, the active-layer
list has length 2 in front-to-back order [quad, base], and the quad logical
layer is in native state. -/
theorem C9_getLayer_front_insert (s : XRSt) (t : LType) (nl : NLayer)
    (s' : XRSt) (effs : List XREff)
    (h : s.getLayer t = Except.ok (some nl, s', effs)) :
    (s'.layers = nl :: s.layers ∧ effs = [s'.updateRenderState]) ∧
    (c9s2.layers.map NLayer.kind = [LType.quad, LType.base] ∧
     c9s2.layers.length = 2 ∧
     ((LayerSt.initial false).bindLayer (some 2)).1.isNative = true) := by
  refine ⟨?_, by decide, by decide, by decide⟩
  cases t with
  | base =>
      unfold XRSt.getLayer at h
      split_ifs at h with h1 h2
      · simp only [Except.ok.injEq, Prod.mk.injEq] at h
        exact Option.noConfusion h.1
      · simp only [Except.ok.injEq, Prod.mk.injEq, Option.some.injEq] at h
        obtain ⟨h3, h4, h5⟩ := h
        subst h3; subst h4; subst h5
        exact ⟨rfl, rfl⟩
      · simp only [Except.ok.injEq, Prod.mk.injEq, Option.some.injEq] at h
        obtain ⟨h3, h4, h5⟩ := h
        subst h3; subst h4; subst h5
        exact ⟨rfl, rfl⟩
  | quad =>
      unfold XRSt.getLayer at h
      split_ifs at h with h1 h2
      · simp only [Except.ok.injEq, Prod.mk.injEq] at h
        exact Option.noConfusion h.1
      · simp only [Except.ok.injEq, Prod.mk.injEq, Option.some.injEq] at h
        obtain ⟨h3, h4, h5⟩ := h
        subst h3; subst h4; subst h5
        exact ⟨rfl, rfl⟩
      · exact absurd ⟨h2, Or.inl (by decide)⟩ h1
  | cube =>
      unfold XRSt.getLayer at h
      split_ifs at h with h1 h2
      · simp only [Except.ok.injEq, Prod.mk.injEq] at h
        exact Option.noConfusion h.1
      · exact absurd ⟨h2, Or.inl (by decide)⟩ h1
  | sphere =>
      unfold XRSt.getLayer at h
      split_ifs at h with h1 h2
      · simp only [Except.ok.injEq, Prod.mk.injEq] at h
        exact Option.noConfusion h.1
      · exact absurd ⟨h2, Or.inl (by decide)⟩ h1

/-- Witness for C9: the session-start base-layer allocation on a
layer-capable host satisfies the theorem's hypothesis, and the conclusion
gives front insertion. -/
theorem C9_getLayer_front_insert_witness :
    c9s0.getLayer LType.base = Except.ok (some c9nl, c9s1, c9effs) ∧
    c9s1.layers = c9nl :: c9s0.layers :=
  ⟨rfl, (C9_getLayer_front_insert c9s0 LType.base c9nl c9s1 c9effs rfl).1.1⟩

end WebXROgl
